import Mathlib

set_option maxRecDepth 8000

/-!
Formal model of the stock-research pipeline: report chunking
(`src/report_chunker.py`), vector search (`src/vector_search.py`), the
embedding service (`src/embedding_service.py`), the research orchestrator
(`src/research_orchestrator.py` with the static registry of
`src/research_subjects.py`), the synthesis agent (`src/synthesis_agent.py`)
and the report chat agent (`src/report_chat_agent.py`).

Python strings are modelled as `List Char` (or Lean `String` where the code
only concatenates), Python `int` as `Int`/`Nat`, `None`-able values as
`Option`, raising code as `Except String`.  Network calls (OpenAI agents,
embeddings) are modelled as explicit oracle parameters.
-/

/-- Sentence-ending characters of the regex class `[.!?]` used by
`ReportChunker._find_sentence_boundary`. -/
def isSentEnd (c : Char) : Bool := c = '.' || c = '!' || c = '?'

/-- The regex class `[A-Z]` (ASCII capitals). -/
def isPyUpper (c : Char) : Bool := 'A' ≤ c && c ≤ 'Z'

/-- The regex class `\d` restricted to ASCII digits (the inputs of this
development are ASCII; Python would also accept other Unicode digits). -/
def isPyDigit (c : Char) : Bool := '0' ≤ c && c ≤ '9'

/-- The regex class `\s` and the default strip set of `str.strip()`,
restricted to ASCII whitespace (the inputs of this development are ASCII). -/
def isPyWs (c : Char) : Bool :=
  c = ' ' || c = '\t' || c = '\n' || c = '\x0b' || c = '\x0c' || c = '\r'

/-- Python `s.strip()`: drop leading and trailing whitespace. -/
def pyStrip (l : List Char) : List Char :=
  ((l.dropWhile isPyWs).reverse.dropWhile isPyWs).reverse

/-- Python slicing `s[a:b]` with the usual normalisation of negative
indices and clamping to the length. -/
def pySlice (l : List Char) (a b : Int) : List Char :=
  let n : Int := l.length
  let a2 : Int := if a < 0 then max (n + a) 0 else min a n
  let b2 : Int := if b < 0 then max (n + b) 0 else min b n
  (l.take b2.toNat).drop a2.toNat

/-- Python list truncation `l[:k]` for an arbitrary (possibly negative)
integer `k`: a negative stop counts from the end, clamped at 0. -/
def pyTruncate {α : Type} (l : List α) (k : Int) : List α :=
  if k < 0 then l.take ((l.length : Int) + k).toNat else l.take k.toNat

/-- Python `l[-k:]`: the last `k` elements. -/
def pyTakeLast {α : Type} (l : List α) (k : Nat) : List α :=
  l.drop (l.length - k)

/-- State of `ReportChunker.__init__`: the constructor multiplies the token
counts `chunk_size` and `overlap` by 4 to obtain character counts. -/
structure ReportChunker where
  chunk_size_chars : Nat
  overlap_chars : Nat
deriving DecidableEq

/-- The constructor `ReportChunker(chunk_size, overlap)`:
`chunk_size_chars = chunk_size * 4`, `overlap_chars = overlap * 4`. -/
def ReportChunker.make (chunk_size overlap : Nat) : ReportChunker :=
  ⟨chunk_size * 4, overlap * 4⟩

/-- A chunk dictionary as produced by `ReportChunker._chunk_text`, before
`chunk_report` adds the `chunk_index` key.  The Python key `section` is
called `sectionName` here because `section` is a Lean keyword. -/
structure PreChunk where
  chunk_text : List Char
  sectionName : Option (List Char)
  start_char : Int
  end_char : Int
deriving DecidableEq

/-- A chunk dictionary after `chunk_report` adds `chunk_index`. -/
structure Chunk where
  chunk_text : List Char
  sectionName : Option (List Char)
  start_char : Int
  end_char : Int
  chunk_index : Nat
deriving DecidableEq

/-- Whether position `c` of the search slice is the final capital of a match
of the pattern `[.!?]\s+[A-Z]`: a sentence-ending character at some `p`,
a non-empty whitespace run filling `(p, c)`, and a capital at `c`. -/
def candidateAt (s : List Char) (c : Nat) : Bool :=
  decide (c < s.length) && isPyUpper (s.getD c ' ') &&
    (List.range c).any (fun p =>
      decide (p + 2 ≤ c) && isSentEnd (s.getD p ' ') &&
        (List.range' (p + 1) (c - p - 1)).all (fun j => isPyWs (s.getD j ' ')))

/-- Model of `ReportChunker._find_sentence_boundary(text, start, end)`.
`re.finditer` over the slice `text[start:end]` returns non-overlapping
matches of `[.!?]\s+[A-Z]` in increasing position; the code takes the last
match and returns `start + match.end() - 1`, the absolute position of the
final capital, or `end` when there is no match.  The last match ends at the
largest position of the slice satisfying `candidateAt` (greedy `\s+` cannot
skip a later candidate, since the capital ending a match can belong to no
other candidate's whitespace run). -/
def findSentenceBoundary (text : List Char) (a e : Int) : Int :=
  let s := pySlice text a e
  match ((List.range s.length).filter (candidateAt s)).getLast? with
  | some c => a + (c : Int)
  | none => e

/-- One window-end computation of the loop in `ReportChunker._chunk_text`:
`end = start + chunk_size_chars`, and when that is not the last window, the
code searches the last 20 % of the window for a sentence boundary and cuts
there if the boundary lies past `start`.  Python computes the 20 % margin as
`int(chunk_size_chars * 0.2)` in floating point; for every
`chunk_size_chars < 2^46` that value equals `chunk_size_chars / 5` in
natural division, which is how it is written here. -/
def windowEnd (csc : Nat) (text : List Char) (start : Int) : Int :=
  let e0 : Int := start + (csc : Int)
  if e0 < (text.length : Int) then
    let ss : Int := max start (e0 - ((csc / 5 : Nat) : Int))
    let se : Int := findSentenceBoundary text ss e0
    if start < se then se else e0
  else e0

/-- The `while start < text_length` loop of `ReportChunker._chunk_text`,
with explicit fuel since the Python loop does not terminate for every
parameter choice.  Each iteration computes the (possibly sentence-cut)
window end, emits the stripped window text when non-empty, and restarts the
window at `end - overlap_chars`; the loop breaks when the new start reaches
the text length. -/
def chunkLoop (oc csc : Nat) (sec : Option (List Char)) (text : List Char) :
    Nat → Int → List PreChunk → Option (List PreChunk)
  | 0, _, _ => none
  | fuel + 1, start, acc =>
    if start < (text.length : Int) then
      let e := windowEnd csc text start
      let ct := pyStrip (pySlice text start e)
      let acc2 := if ct.isEmpty then acc else acc ++ [⟨ct, sec, start, e⟩]
      let s2 := e - (oc : Int)
      if (text.length : Int) ≤ s2 then some acc2
      else chunkLoop oc csc sec text fuel s2 acc2
    else some acc

/-- Model of `ReportChunker._chunk_text(text, chunk_size_chars, section)`:
text no longer than the chunk size is returned as a single unstripped
chunk, otherwise the sliding-window loop runs (with fuel). -/
def chunkText (ck : ReportChunker) (fuel : Nat) (text : List Char)
    (csc : Nat) (sec : Option (List Char)) : Option (List PreChunk) :=
  if text.length ≤ csc then some [⟨text, sec, 0, (text.length : Int)⟩]
  else chunkLoop ck.overlap_chars csc sec text fuel 0 []

/-- Number of leading characters satisfying `p` (used for the greedy
`#{1,3}`, `\d+` and `\s+` pieces of the header regex). -/
def countLeading (p : Char → Bool) : List Char → Nat
  | [] => 0
  | c :: rest => if p c then countLeading p rest + 1 else 0

/-- First alternative `#{1,3}\s+.+?` of the header pattern of
`ReportChunker._split_into_sections`, matched against a whole line that
contains no newline (lines come from `text.split('\n')`): one to three
leading `#`, a whitespace character, and at least one further character. -/
def isHeaderAlt1 (l : List Char) : Bool :=
  let c := countLeading (· = '#') l
  1 ≤ c && c ≤ 3 && isPyWs (l.getD c ' ') && c + 2 ≤ l.length

/-- Second alternative `^\d+\.\s+[A-Z][^\n]+`: leading digits, a dot, a
non-empty whitespace run, a capital, and at least one further character. -/
def isHeaderAlt2 (l : List Char) : Bool :=
  let d := countLeading isPyDigit l
  let w := countLeading isPyWs (l.drop (d + 1))
  1 ≤ d && l.getD d ' ' = '.' && 1 ≤ w &&
    isPyUpper (l.getD (d + 1 + w) ' ') && d + 1 + w + 2 ≤ l.length

/-- Third alternative `^[A-Z][^\n:]+:`: a capital, a non-empty colon-free
middle, and a final colon ending the line. -/
def isHeaderAlt3 (l : List Char) : Bool :=
  3 ≤ l.length && isPyUpper (l.getD 0 ' ') && l.getLast? = some ':' &&
    ((l.drop 1).take (l.length - 2)).all (fun x => x ≠ ':' && x ≠ '\n')

/-- Model of `re.match(header_pattern, line.strip(), re.MULTILINE)` being a
match, for a line without newlines. -/
def isHeaderLine (l : List Char) : Bool :=
  isHeaderAlt1 l || isHeaderAlt2 l || isHeaderAlt3 l

/-- Python `'\n'.join(lines)`. -/
def joinLinesNL (lines : List (List Char)) : List Char :=
  List.intercalate ['\n'] lines

/-- The new section name taken from a header line:
`line.strip().lstrip('#').strip()`. -/
def headerName (line : List Char) : List Char :=
  pyStrip ((pyStrip line).dropWhile (· = '#'))

/-- The line loop of `ReportChunker._split_into_sections`: accumulate lines
into the current section, and start a new section at each header line. -/
def sectionsLoop : List (List Char) → List Char → List (List Char) →
    List (List Char × List Char) → List (List Char × List Char)
  | [], curName, curText, secs =>
    if curText.isEmpty then secs else secs ++ [(curName, joinLinesNL curText)]
  | line :: rest, curName, curText, secs =>
    if isHeaderLine (pyStrip line) then
      let secs2 :=
        if curText.isEmpty then secs
        else secs ++ [(curName, joinLinesNL curText)]
      sectionsLoop rest (headerName line) [line] secs2
    else sectionsLoop rest curName (curText ++ [line]) secs

/-- Model of `ReportChunker._split_into_sections(text)`. -/
def splitIntoSections (text : List Char) : List (List Char × List Char) :=
  let secs := sectionsLoop (text.splitOn '\n') "Introduction".toList [] []
  if secs.isEmpty then [("Full Report".toList, text)] else secs

/-- Sequential assignment of `chunk_index` starting at `i`, as performed by
the accumulating loop of `ReportChunker.chunk_report`. -/
def numberFrom : Nat → List PreChunk → List Chunk
  | _, [] => []
  | i, pc :: rest =>
    ⟨pc.chunk_text, pc.sectionName, pc.start_char, pc.end_char, i⟩ ::
      numberFrom (i + 1) rest

/-- The chunk size used by `chunk_report`: the override is applied only when
it is truthy (`if chunk_size:`), so `None` and `0` both fall back to the
constructor value. -/
def resolveChunkSize (ck : ReportChunker) (cs : Option Nat) : Nat :=
  match cs with
  | some n => if n = 0 then ck.chunk_size_chars else n * 4
  | none => ck.chunk_size_chars

/-- Model of `ReportChunker.chunk_report(report_text, chunk_size,
preserve_sections)`.  With `preserve_sections` the code chunks each section
and assigns `chunk_index` from a counter running across sections, which is
exactly `numberFrom 0` of the concatenation; without it, `enumerate` over
the plain chunking assigns the same indices.  `none` means a section's
window loop ran out of fuel (the Python loop would not have terminated). -/
def chunkReport (ck : ReportChunker) (fuel : Nat) (text : List Char)
    (cs : Option Nat) (preserve : Bool) : Option (List Chunk) :=
  let csc := resolveChunkSize ck cs
  if preserve then
    (List.mapM (fun st => chunkText ck fuel st.2 csc (some st.1))
        (splitIntoSections text)).map
      (fun ls => numberFrom 0 ls.flatten)
  else
    (chunkText ck fuel text csc none).map (numberFrom 0)

/-- Termination of `chunk_report` on a given input: some fuel completes it. -/
def chunkReportTerminates (ck : ReportChunker) (text : List Char)
    (cs : Option Nat) (preserve : Bool) : Prop :=
  ∃ fuel res, chunkReport ck fuel text cs preserve = some res

/-! Helper lemmas about the chunker model. -/

/-- The last element reported by `getLast?` is a member of the list. -/
theorem mem_of_getLast_eq {α : Type} {l : List α} {a : α}
    (h : l.getLast? = some a) : a ∈ l := by
  induction l with
  | nil => simp at h
  | cons x xs ih =>
    cases xs with
    | nil => simp_all
    | cons y ys =>
      rw [List.getLast?_cons_cons] at h
      exact List.mem_cons_of_mem _ (ih h)

/-- Length bound on a Python slice: at most `b - a` characters when the
range is non-trivial and starts at a valid position. -/
theorem pySlice_length_le (l : List Char) (a b : Int) (ha : 0 ≤ a)
    (hab : a ≤ b) : ((pySlice l a b).length : Int) ≤ b - a := by
  unfold pySlice
  have h1 : ¬ a < 0 := by omega
  have h2 : ¬ b < 0 := by omega
  simp only [List.length_drop, List.length_take, if_neg h1, if_neg h2]
  omega

/-- A sentence-boundary search never returns a position before the search
start (when the range is non-trivial). -/
theorem findSentenceBoundary_ge (text : List Char) (a e : Int) (hae : a ≤ e) :
    a ≤ findSentenceBoundary text a e := by
  simp only [findSentenceBoundary]
  split
  · omega
  · exact hae

/-- A sentence-boundary search never returns a position past `e` when the
range is non-trivial and starts at a valid position. -/
theorem findSentenceBoundary_le (text : List Char) (a e : Int) (ha : 0 ≤ a)
    (hab : a ≤ e) : findSentenceBoundary text a e ≤ e := by
  simp only [findSentenceBoundary]
  split
  case h_1 c hc =>
    have hmem := mem_of_getLast_eq hc
    rw [List.mem_filter, List.mem_range] at hmem
    have hlen := pySlice_length_le text a e ha hab
    omega
  case h_2 => omega

/-- Lower bound on the possibly-cut window end: a sentence cut can move the
end at most `⌊chunk_size_chars / 5⌋` characters back from the raw edge. -/
theorem windowEnd_ge (csc : Nat) (text : List Char) (s : Int) :
    s + ((csc : Int) - ((csc / 5 : Nat) : Int)) ≤ windowEnd csc text s := by
  have h5 : ((csc / 5 : Nat) : Int) ≤ (csc : Int) := by
    have := Nat.div_le_self csc 5
    omega
  simp only [windowEnd]
  split
  · have hfsb := findSentenceBoundary_ge text
      (max s (s + (csc : Int) - ((csc / 5 : Nat) : Int))) (s + (csc : Int))
      (by omega)
    split
    · omega
    · omega
  · omega

/-- Upper bound on the possibly-cut window end: never past the raw edge
`start + chunk_size_chars` (for a window starting at a valid position). -/
theorem windowEnd_le (csc : Nat) (text : List Char) (s : Int) (h0 : 0 ≤ s) :
    windowEnd csc text s ≤ s + (csc : Int) := by
  have h5 : ((csc / 5 : Nat) : Int) ≤ (csc : Int) := by
    have := Nat.div_le_self csc 5
    omega
  simp only [windowEnd]
  split
  · have hfsb := findSentenceBoundary_le text
      (max s (s + (csc : Int) - ((csc / 5 : Nat) : Int))) (s + (csc : Int))
      (by omega) (by omega)
    split
    · omega
    · omega
  · omega

/-- A window whose start does not advance (its end minus the overlap equals
the start again) loops forever: no fuel completes the window loop. -/
theorem chunkLoop_stuck (oc csc : Nat) (sec : Option (List Char))
    (text : List Char) (s : Int) (hsL : s < (text.length : Int))
    (hE : windowEnd csc text s - (oc : Int) = s) :
    ∀ fuel acc, chunkLoop oc csc sec text fuel s acc = none := by
  intro fuel
  induction fuel with
  | zero => intro acc; rfl
  | succ n ih =>
    intro acc
    rw [chunkLoop, if_pos hsL]
    simp only [hE]
    rw [if_neg (by omega)]
    exact ih _

/-- Fuel monotonicity of the window loop (one step). -/
theorem chunkLoop_mono (oc csc : Nat) (sec : Option (List Char))
    (text : List Char) :
    ∀ fuel s acc r, chunkLoop oc csc sec text fuel s acc = some r →
      chunkLoop oc csc sec text (fuel + 1) s acc = some r := by
  intro fuel
  induction fuel with
  | zero =>
    intro s acc r h
    exact absurd h (by simp [chunkLoop])
  | succ n ih =>
    intro s acc r h
    rw [chunkLoop] at h ⊢
    dsimp only at h ⊢
    split at h
    · split at h
      · rw [if_pos (by assumption), if_pos (by assumption)]
        exact h
      · rw [if_pos (by assumption), if_neg (by assumption)]
        exact ih _ _ _ h
    · rw [if_neg (by assumption)]
      exact h

/-- Fuel monotonicity of the window loop. -/
theorem chunkLoop_mono_le (oc csc : Nat) (sec : Option (List Char))
    (text : List Char) :
    ∀ f1 f2 s acc r, f1 ≤ f2 → chunkLoop oc csc sec text f1 s acc = some r →
      chunkLoop oc csc sec text f2 s acc = some r := by
  intro f1 f2
  induction f2 with
  | zero =>
    intro s acc r h1 h
    have : f1 = 0 := by omega
    subst this
    exact h
  | succ n ih =>
    intro s acc r h1 h
    rcases Nat.lt_or_ge f1 (n + 1) with h2 | h2
    · exact chunkLoop_mono oc csc sec text n s acc r (ih s acc r (by omega) h)
    · have : f1 = n + 1 := by omega
      subst this
      exact h

/-- When the overlap is smaller than the guaranteed window advance
`chunk_size_chars - ⌊chunk_size_chars / 5⌋`, every window strictly advances
and the loop completes on some fuel. -/
theorem chunkLoop_total (oc csc : Nat) (sec : Option (List Char))
    (text : List Char)
    (hadv : (oc : Int) < (csc : Int) - ((csc / 5 : Nat) : Int)) :
    ∀ m s, ((text.length : Int) - s).toNat ≤ m → 0 ≤ s →
      ∀ acc, ∃ fuel, (chunkLoop oc csc sec text fuel s acc).isSome := by
  intro m
  induction m with
  | zero =>
    intro s hm h0 acc
    refine ⟨1, ?_⟩
    rw [chunkLoop, if_neg (by omega)]
    rfl
  | succ n ih =>
    intro s hm h0 acc
    rcases Int.lt_or_le s (text.length : Int) with hsL | hsL
    · have hge := windowEnd_ge csc text s
      rcases Int.lt_or_le (windowEnd csc text s - (oc : Int))
          (text.length : Int) with h2 | h2
      · obtain ⟨fuel, h⟩ := ih (windowEnd csc text s - (oc : Int))
          (by omega) (by omega)
          (if (pyStrip (pySlice text s (windowEnd csc text s))).isEmpty then acc
           else acc ++ [⟨pyStrip (pySlice text s (windowEnd csc text s)), sec,
             s, windowEnd csc text s⟩])
        refine ⟨fuel + 1, ?_⟩
        rw [chunkLoop, if_pos hsL]
        dsimp only
        rw [if_neg (by omega)]
        exact h
      · refine ⟨1, ?_⟩
        rw [chunkLoop, if_pos hsL]
        dsimp only
        rw [if_pos h2]
        rfl
    · refine ⟨1, ?_⟩
      rw [chunkLoop, if_neg (by omega)]
      rfl

/-- The indices written by `numberFrom i` are `i, i+1, ...` in order. -/
theorem numberFrom_map_index (l : List PreChunk) :
    ∀ i, (numberFrom i l).map Chunk.chunk_index = List.range' i l.length := by
  induction l with
  | nil => intro i; rfl
  | cons pc rest ih =>
    intro i
    simp only [numberFrom, List.map_cons, List.length_cons, List.range'_succ]
    rw [ih (i + 1)]

/-- Numbering preserves the number of chunks. -/
theorem numberFrom_length (l : List PreChunk) :
    ∀ i, (numberFrom i l).length = l.length := by
  induction l with
  | nil => intro i; rfl
  | cons pc rest ih =>
    intro i
    simp only [numberFrom, List.length_cons, ih (i + 1)]

/-- C2.  For every input string and chunking parameters, the `chunk_index`
values of the chunk list returned by `chunk_report` form the contiguous
ascending sequence `0, 1, ..., n-1` (in particular they are unique and
dense, even when empty trimmed chunks were discarded by the window loop). -/
theorem chunkReport_chunk_index_contiguous (ck : ReportChunker) (fuel : Nat)
    (text : List Char) (cs : Option Nat) (preserve : Bool)
    (res : List Chunk) (h : chunkReport ck fuel text cs preserve = some res) :
    res.map Chunk.chunk_index = List.range res.length := by
  unfold chunkReport at h
  dsimp only at h
  split at h
  · rw [Option.map_eq_some'] at h
    obtain ⟨ls, _, rfl⟩ := h
    rw [numberFrom_map_index, numberFrom_length, List.range_eq_range']
  · rw [Option.map_eq_some'] at h
    obtain ⟨pcs, _, rfl⟩ := h
    rw [numberFrom_map_index, numberFrom_length, List.range_eq_range']

/-- Witness for C2 at a concrete input: chunking the two-character report
"ab" with the default constructor parameters yields one chunk, indexed 0. -/
theorem chunkReport_chunk_index_contiguous_witness :
    (chunkReport (ReportChunker.make 600 100) 5 "ab".toList none true =
      some [⟨"ab".toList, some "Introduction".toList, 0, 2, 0⟩]) ∧
    ([(⟨"ab".toList, some "Introduction".toList, 0, 2, 0⟩ : Chunk)].map
        Chunk.chunk_index =
      List.range [(⟨"ab".toList, some "Introduction".toList, 0, 2, 0⟩ :
        Chunk)].length) :=
  ⟨by decide, chunkReport_chunk_index_contiguous (ReportChunker.make 600 100)
    5 "ab".toList none true
    [⟨"ab".toList, some "Introduction".toList, 0, 2, 0⟩] (by decide)⟩

/-- C4 counterexample.  `chunk_report` does not terminate for every
parameter choice: with `ReportChunker(chunk_size=1, overlap=1)` (4 overlap
characters cancelling the whole 4-character window advance) on an
8-character text, the window start never advances, so no fuel completes the
loop — the Python `while` loop runs forever. -/
theorem chunkReport_nonterminating_cex :
    ¬ chunkReportTerminates (ReportChunker.make 1 1) (List.replicate 8 'a')
      none false := by
  rintro ⟨fuel, res, h⟩
  have hstuck := chunkLoop_stuck 4 4 none (List.replicate 8 'a') 0
    (by decide) (by decide) fuel []
  unfold chunkReport chunkText at h
  dsimp only at h
  rw [if_neg (by decide), if_neg (by decide)] at h
  have : (ReportChunker.make 1 1).overlap_chars = 4 := by decide
  rw [this] at h
  have h4 : resolveChunkSize (ReportChunker.make 1 1) none = 4 := by decide
  rw [h4] at h
  rw [hstuck] at h
  simp at h

/-- Fuel monotonicity of `_chunk_text`. -/
theorem chunkText_mono_le (ck : ReportChunker) (f1 f2 : Nat)
    (text : List Char) (csc : Nat) (sec : Option (List Char))
    (r : List PreChunk) (hf : f1 ≤ f2)
    (h : chunkText ck f1 text csc sec = some r) :
    chunkText ck f2 text csc sec = some r := by
  unfold chunkText at h ⊢
  split at h
  · rw [if_pos (by assumption)]
    exact h
  · rw [if_neg (by assumption)]
    exact chunkLoop_mono_le _ _ _ _ f1 f2 _ _ _ hf h

/-- Totality of `_chunk_text` when the overlap is smaller than the
guaranteed window advance. -/
theorem chunkText_total (ck : ReportChunker) (text : List Char) (csc : Nat)
    (sec : Option (List Char))
    (hadv : (ck.overlap_chars : Int) < (csc : Int) - ((csc / 5 : Nat) : Int)) :
    ∃ fuel r, chunkText ck fuel text csc sec = some r := by
  unfold chunkText
  rcases le_or_lt text.length csc with h | h
  · exact ⟨0, _, by rw [if_pos h]⟩
  · obtain ⟨fuel, hs⟩ := chunkLoop_total ck.overlap_chars csc sec text hadv
      ((text.length : Int) - 0).toNat 0 (by omega) (by omega) []
    rw [Option.isSome_iff_exists] at hs
    obtain ⟨r, hr⟩ := hs
    exact ⟨fuel, r, by rw [if_neg (by omega)]; exact hr⟩

/-- Fuel monotonicity of the per-section `_chunk_text` traversal. -/
theorem mapM_chunkText_mono (ck : ReportChunker) (csc : Nat) (f1 f2 : Nat)
    (hf : f1 ≤ f2) :
    ∀ (sects : List (List Char × List Char)) (rs : List (List PreChunk)),
      List.mapM (fun st => chunkText ck f1 st.2 csc (some st.1)) sects =
        some rs →
      List.mapM (fun st => chunkText ck f2 st.2 csc (some st.1)) sects =
        some rs := by
  intro sects
  induction sects with
  | nil =>
    intro rs h
    exact h
  | cons st rest ih =>
    intro rs h
    rw [List.mapM_cons] at h ⊢
    cases hy : chunkText ck f1 st.2 csc (some st.1) with
    | none => rw [hy] at h; simp at h
    | some y =>
      rw [hy] at h
      cases hys : List.mapM
          (fun st => chunkText ck f1 st.2 csc (some st.1)) rest with
      | none => rw [hys] at h; simp at h
      | some ys =>
        rw [hys] at h
        rw [chunkText_mono_le ck f1 f2 st.2 csc (some st.1) y hf hy,
          ih ys hys]
        exact h

/-- A common fuel completes `_chunk_text` on every section at once. -/
theorem mapM_chunkText_total (ck : ReportChunker) (csc : Nat)
    (hadv : (ck.overlap_chars : Int) < (csc : Int) - ((csc / 5 : Nat) : Int)) :
    ∀ sects : List (List Char × List Char), ∃ fuel rs,
      List.mapM (fun st => chunkText ck fuel st.2 csc (some st.1)) sects =
        some rs := by
  intro sects
  induction sects with
  | nil => exact ⟨0, [], rfl⟩
  | cons st rest ih =>
    obtain ⟨f1, r1, h1⟩ := chunkText_total ck st.2 csc (some st.1) hadv
    obtain ⟨F, rs, hF⟩ := ih
    refine ⟨max f1 F, r1 :: rs, ?_⟩
    rw [List.mapM_cons]
    rw [chunkText_mono_le ck f1 (max f1 F) st.2 csc (some st.1) r1
      (Nat.le_max_left _ _) h1]
    rw [mapM_chunkText_mono ck csc F (max f1 F) (Nat.le_max_right _ _)
      rest rs hF]
    rfl

/-- C4 amended.  `chunk_report` terminates and returns a chunk list for
every string input whenever the overlap is smaller than the guaranteed
window advance `chunk_size_chars - ⌊chunk_size_chars / 5⌋` (a sentence-cut
can pull a window end at most 20 % of the chunk size back from the raw
edge; the default parameters satisfy this).  The original claim, totality
for every parameter choice, is refuted by
`chunkReport_nonterminating_cex`. -/
theorem chunkReport_terminates_of_safe_overlap (ck : ReportChunker)
    (text : List Char) (cs : Option Nat) (preserve : Bool)
    (hadv : ck.overlap_chars <
      resolveChunkSize ck cs - resolveChunkSize ck cs / 5) :
    chunkReportTerminates ck text cs preserve := by
  have hInt : (ck.overlap_chars : Int) < ((resolveChunkSize ck cs : Nat) : Int) -
      (((resolveChunkSize ck cs / 5 : Nat) : Nat) : Int) := by
    have := Nat.div_le_self (resolveChunkSize ck cs) 5
    omega
  cases preserve with
  | true =>
    obtain ⟨fuel, rs, h⟩ := mapM_chunkText_total ck (resolveChunkSize ck cs)
      hInt (splitIntoSections text)
    refine ⟨fuel, numberFrom 0 rs.flatten, ?_⟩
    unfold chunkReport
    dsimp only
    rw [if_pos rfl, h]
    rfl
  | false =>
    obtain ⟨fuel, r, h⟩ := chunkText_total ck text (resolveChunkSize ck cs)
      none hInt
    refine ⟨fuel, numberFrom 0 r, ?_⟩
    unfold chunkReport
    dsimp only
    rw [if_neg Bool.false_ne_true, h]
    rfl

/-- Witness for the amended C4: the default parameters (overlap 400 chars,
guaranteed advance 1920 chars) make chunking total; applied to "ab". -/
theorem chunkReport_terminates_of_safe_overlap_witness :
    ((ReportChunker.make 600 100).overlap_chars <
      resolveChunkSize (ReportChunker.make 600 100) none -
        resolveChunkSize (ReportChunker.make 600 100) none / 5) ∧
    chunkReportTerminates (ReportChunker.make 600 100) "ab".toList none
      false :=
  ⟨by decide, chunkReport_terminates_of_safe_overlap
    (ReportChunker.make 600 100) "ab".toList none false (by decide)⟩

/-- Concrete text for the window-advance counterexample: 30 characters with
a sentence boundary (". A") at positions 16..18, inside the last 20 % of
the first 20-character window. -/
def cutDemoText : List Char :=
  List.replicate 16 'a' ++ ". A".toList ++ List.replicate 11 'a'

/-- C6 counterexample.  With `ReportChunker(chunk_size=5, overlap=1)`
(20-character windows, 4-character overlap) on `cutDemoText`, the first
window is sentence-cut at position 18, so the second window starts at
`18 - 4 = 14`: the start advances by 14 characters, not by
`target_size - overlap = 16`.  The claimed equivalence of "advance by
`target_size - overlap`" with "start `overlap` before the previous window's
end" fails at a sentence-boundary cut. -/
theorem window_advance_cex :
    (chunkReport (ReportChunker.make 5 1) 3 cutDemoText none false).map
        (fun l => l.map Chunk.start_char) = some [0, 14] ∧
      ((14 : Int) - 0 ≠ (20 : Int) - 4) := by
  constructor
  · decide
  · decide

/-- The step property of the sliding-window loop at a non-terminal window
start `s`: one iteration of the loop emits the window `[s, e)` for the
possibly-cut end `e = windowEnd`, and the next window starts exactly
`overlap_chars` before `e`; the cut end lies between
`s + chunk_size_chars - ⌊chunk_size_chars / 5⌋` and the raw edge
`s + chunk_size_chars`. -/
def windowStepOk (oc csc : Nat) (sec : Option (List Char)) (text : List Char)
    (s : Int) (fuel : Nat) (acc : List PreChunk) : Prop :=
  (chunkLoop oc csc sec text (fuel + 1) s acc =
    (let e := windowEnd csc text s
     let ct := pyStrip (pySlice text s e)
     let acc2 := if ct.isEmpty then acc else acc ++ [⟨ct, sec, s, e⟩]
     if (text.length : Int) ≤ e - (oc : Int) then some acc2
     else chunkLoop oc csc sec text fuel (e - (oc : Int)) acc2)) ∧
  s + ((csc : Int) - ((csc / 5 : Nat) : Int)) ≤ windowEnd csc text s ∧
  windowEnd csc text s ≤ s + (csc : Int)

/-- C6 amended.  After each window the loop restarts the window at
`windowEnd - overlap_chars`, i.e. `overlap` characters before the previous
window's (possibly sentence-cut) end; the advance equals
`target_size - overlap` only when the end is the raw edge, and can be up to
`⌊target_size / 5⌋` smaller when a sentence-boundary cut fires
(`window_advance_cex`). -/
theorem window_advance_overlap_before_end (oc csc : Nat)
    (sec : Option (List Char)) (text : List Char) (s : Int) (fuel : Nat)
    (acc : List PreChunk) (h0 : 0 ≤ s) (hs : s < (text.length : Int)) :
    windowStepOk oc csc sec text s fuel acc := by
  refine ⟨?_, windowEnd_ge csc text s, windowEnd_le csc text s h0⟩
  rw [chunkLoop, if_pos hs]

/-- Witness for the amended C6 at the counterexample input: the first
window of `cutDemoText` satisfies the step property. -/
theorem window_advance_overlap_before_end_witness :
    ((0 : Int) ≤ 0 ∧ (0 : Int) < (cutDemoText.length : Int)) ∧
      windowStepOk 4 20 none cutDemoText 0 2 [] :=
  ⟨⟨by decide, by decide⟩,
    window_advance_overlap_before_end 4 20 none cutDemoText 0 2 []
      (by decide) (by decide)⟩

/-! Vector search (`src/vector_search.py`).  Embedding vectors are modelled
as lists of rationals.  `np.linalg.norm` computes a floating-point square
root; `ratSqrt` below is exact for rationals whose reduced numerator and
denominator are perfect squares, which covers every concrete vector used in
this development, and the search-level theorems do not depend on the
numeric value of a score. -/

/-- Square root on the rationals used to model `np.linalg.norm`: exact on
quotients of perfect squares (all concrete inputs below). -/
def ratSqrt (q : ℚ) : ℚ :=
  if q.num < 0 then 0 else (Nat.sqrt q.num.toNat : ℚ) / (Nat.sqrt q.den : ℚ)

/-- Model of `np.dot` on equal-length vectors. -/
def dotList (v1 v2 : List ℚ) : ℚ := (List.zipWith (· * ·) v1 v2).sum

/-- Model of `np.linalg.norm`: square root of the sum of squares. -/
def normList (v : List ℚ) : ℚ := ratSqrt (dotList v v)

/-- Model of `VectorSearch._cosine_similarity`: 0 when either norm is 0,
otherwise the normalised dot product. -/
def cosineSimilarity (v1 v2 : List ℚ) : ℚ :=
  let n1 := normList v1
  let n2 := normList v2
  if n1 = 0 ∨ n2 = 0 then 0 else dotList v1 v2 / (n1 * n2)

/-- A chunk row as returned by `db.get_chunks_by_report` with embeddings
included.  A JSON-string embedding is modelled in parsed form; `none`
models a missing/`NULL` embedding.  The Python key `section` is called
`sectionName` (Lean keyword). -/
structure ChunkRow where
  chunk_id : String
  chunk_text : String
  sectionName : Option String
  chunk_index : Nat
  embedding : Option (List ℚ)
  created_at : Option String
deriving DecidableEq

/-- A scored result dictionary of `VectorSearch.search_chunks`. -/
structure SearchResult where
  chunk_id : String
  chunk_text : String
  sectionName : Option String
  chunk_index : Nat
  similarity_score : ℚ
  created_at : Option String
deriving DecidableEq

/-- The scoring loop of `search_chunks`: skip chunks with a falsy embedding
(`None` or the empty list), score the rest, and keep those with
`similarity >= min_score`. -/
def scoredResults (rows : List ChunkRow) (q : List ℚ) (ms : ℚ) :
    List SearchResult :=
  rows.filterMap (fun c =>
    match c.embedding with
    | none => none
    | some e =>
      if e = [] then none
      else
        let s := cosineSimilarity q e
        if ms ≤ s then
          some ⟨c.chunk_id, c.chunk_text, c.sectionName, c.chunk_index, s,
            c.created_at⟩
        else none)

/-- Stable descending insertion into a list sorted by descending score: the
new element goes before the first element with a score not above its own,
so elements with equal scores keep their original relative order. -/
def insertDesc (x : SearchResult) : List SearchResult → List SearchResult
  | [] => [x]
  | y :: ys =>
    if y.similarity_score ≤ x.similarity_score then x :: y :: ys
    else y :: insertDesc x ys

/-- Stable descending sort by `similarity_score`, modelling Python's stable
`results.sort(key=lambda x: x['similarity_score'], reverse=True)`. -/
def sortDesc : List SearchResult → List SearchResult
  | [] => []
  | x :: xs => insertDesc x (sortDesc xs)

/-- The ranked result set before truncation: `results.sort(key=score,
reverse=True)` is a stable descending sort. -/
def rankedResults (rows : List ChunkRow) (q : List ℚ) (ms : ℚ) :
    List SearchResult :=
  sortDesc (scoredResults rows q ms)

/-- Model of `VectorSearch.search_chunks(report_id, query_embedding, top_k,
min_score)`: the rows stand for the chunks the database holds for the
report.  The final `results[:top_k]` is Python slicing, which for a
negative `top_k` drops elements from the end rather than returning `[]`. -/
def searchChunks (rows : List ChunkRow) (q : List ℚ) (top_k : Int)
    (ms : ℚ) : List SearchResult :=
  if rows.isEmpty then []
  else pyTruncate (rankedResults rows q ms) top_k

/-- Truncation yields a prefix of the list. -/
theorem pyTruncate_sublist {α : Type} (l : List α) (k : Int) :
    (pyTruncate l k).Sublist l := by
  unfold pyTruncate
  split
  · exact List.take_sublist _ _
  · exact List.take_sublist _ _

/-- C3 counterexample.  The claim "`top_k ≤ 0` returns the empty list"
fails for negative `top_k`: Python `results[:-1]` keeps all but the last
result, so a search over two embedded chunks with `top_k = -1` returns one
result, not zero. -/
theorem searchChunks_negative_topk_cex :
    ((-1 : Int) ≤ 0) ∧
      (searchChunks
          [⟨"c1", "t1", none, 0, some [1], none⟩,
           ⟨"c2", "t2", none, 1, some [1], none⟩]
          [1] (-1) 0).length = 1 := by
  have hc : cosineSimilarity [1] [1] = 1 := by
    norm_num [cosineSimilarity, normList, dotList, ratSqrt]
  constructor
  · decide
  · norm_num [searchChunks, rankedResults, scoredResults,
      List.filterMap_cons, sortDesc, insertDesc, pyTruncate, hc]

/-- Inserting into a descending-sorted list yields a permutation of the
element consed onto the list. -/
theorem insertDesc_perm (x : SearchResult) (l : List SearchResult) :
    (insertDesc x l).Perm (x :: l) := by
  induction l with
  | nil => exact List.Perm.refl _
  | cons y ys ih =>
    rw [insertDesc]
    split
    · exact List.Perm.refl _
    · exact (ih.cons y).trans (List.Perm.swap x y ys)

/-- The stable sort permutes its input. -/
theorem sortDesc_perm (l : List SearchResult) : (sortDesc l).Perm l := by
  induction l with
  | nil => exact List.Perm.refl _
  | cons x xs ih =>
    exact (insertDesc_perm x (sortDesc xs)).trans (ih.cons x)

/-- Inserting preserves descending order by score. -/
theorem insertDesc_sorted (x : SearchResult) (l : List SearchResult)
    (h : l.Pairwise (fun a b => b.similarity_score ≤ a.similarity_score)) :
    (insertDesc x l).Pairwise
      (fun a b => b.similarity_score ≤ a.similarity_score) := by
  induction l with
  | nil => simp [insertDesc]
  | cons y ys ih =>
    rw [List.pairwise_cons] at h
    rw [insertDesc]
    split
    · refine List.pairwise_cons.mpr ⟨?_, List.pairwise_cons.mpr h⟩
      intro z hz
      rcases List.mem_cons.mp hz with rfl | hz2
      · assumption
      · exact le_trans (h.1 z hz2) (by assumption)
    · refine List.pairwise_cons.mpr ⟨?_, ih h.2⟩
      intro z hz
      rcases List.mem_cons.mp ((insertDesc_perm x ys).mem_iff.mp hz) with
        rfl | hz2
      · exact le_of_not_le (by assumption)
      · exact h.1 z hz2

/-- The stable sort produces a descending-sorted list. -/
theorem sortDesc_sorted (l : List SearchResult) :
    (sortDesc l).Pairwise
      (fun a b => b.similarity_score ≤ a.similarity_score) := by
  induction l with
  | nil => exact List.Pairwise.nil
  | cons x xs ih => exact insertDesc_sorted x (sortDesc xs) ih

/-- C3 amended.  `search_chunks` returns at most `top_k` results for every
non-negative `top_k`, sorted by descending similarity score; it returns the
empty list for `top_k = 0`, for an empty chunk set, and for a chunk set
with no embedded chunks.  For a negative `top_k` Python slicing keeps all
but the last `-top_k` results instead of returning the empty list
(`searchChunks_negative_topk_cex`). -/
theorem searchChunks_topk_spec (rows : List ChunkRow) (q : List ℚ)
    (top_k : Int) (ms : ℚ) :
    (0 ≤ top_k → ((searchChunks rows q top_k ms).length : Int) ≤ top_k) ∧
    (searchChunks rows q top_k ms).Pairwise
      (fun a b => b.similarity_score ≤ a.similarity_score) ∧
    (top_k = 0 → searchChunks rows q top_k ms = []) ∧
    (rows = [] → searchChunks rows q top_k ms = []) ∧
    ((∀ c ∈ rows, c.embedding = none) → searchChunks rows q top_k ms = []) := by
  refine ⟨?_, ?_, ?_, ?_, ?_⟩
  · intro hk
    unfold searchChunks
    split
    · simp
      omega
    · unfold pyTruncate
      rw [if_neg (by omega)]
      have := List.length_take top_k.toNat (rankedResults rows q ms)
      have h2 : (List.take top_k.toNat (rankedResults rows q ms)).length ≤
          top_k.toNat := by
        rw [this]; omega
      omega
  · unfold searchChunks
    split
    · exact List.Pairwise.nil
    · exact List.Pairwise.sublist (pyTruncate_sublist _ _)
        (sortDesc_sorted (scoredResults rows q ms))
  · intro hk
    subst hk
    unfold searchChunks
    split
    · rfl
    · unfold pyTruncate
      rw [if_neg (by omega)]
      simp
  · intro hr
    subst hr
    rfl
  · intro hall
    have hscored : scoredResults rows q ms = [] := by
      unfold scoredResults
      induction rows with
      | nil => rfl
      | cons c rest ih =>
        rw [List.filterMap_cons, hall c (List.mem_cons_self c rest)]
        exact ih (fun c2 hc2 => hall c2 (List.mem_cons_of_mem c hc2))
    unfold searchChunks
    split
    · rfl
    · rw [rankedResults, hscored]
      unfold pyTruncate sortDesc
      split <;> simp

/-- Witness for the amended C3 at concrete inputs: a two-chunk report
searched with `top_k = 2` returns at most two results; `top_k = 0`, an
empty chunk set, and a chunk set with only missing embeddings each return
the empty list. -/
theorem searchChunks_topk_spec_witness :
    (((searchChunks
        [⟨"c1", "t1", none, 0, some [1], none⟩,
         ⟨"c2", "t2", none, 1, some [1], none⟩] [1] 2 0).length : Int) ≤ 2) ∧
    searchChunks
        [⟨"c1", "t1", none, 0, some [1], none⟩,
         ⟨"c2", "t2", none, 1, some [1], none⟩] [1] 0 0 = [] ∧
    searchChunks [] [1] 5 0 = [] ∧
    searchChunks [⟨"c3", "t3", none, 0, none, none⟩] [1] 5 0 = [] :=
  ⟨(searchChunks_topk_spec _ [1] 2 0).1 (by decide),
   (searchChunks_topk_spec _ [1] 0 0).2.2.1 rfl,
   (searchChunks_topk_spec _ [1] 5 0).2.2.2.1 rfl,
   (searchChunks_topk_spec _ [1] 5 0).2.2.2.2 (by
     intro c hc
     rcases List.mem_singleton.mp hc with rfl
     rfl)⟩

/-- C7 counterexample.  The default `min_score = 0` is not "no filtering":
a chunk whose embedding points opposite the query has cosine similarity
`-1 < 0` and is dropped from the ranked result set even though its
embedding is non-null. -/
theorem min_score_zero_filters_negative_cex :
    (List.filter (fun c => c.embedding.isSome)
        [(⟨"c1", "t1", none, 0, some [-1], none⟩ : ChunkRow)]).length = 1 ∧
    rankedResults [⟨"c1", "t1", none, 0, some [-1], none⟩] [1] 0 = [] ∧
    searchChunks [⟨"c1", "t1", none, 0, some [-1], none⟩] [1] 5 0 = [] := by
  have hc : cosineSimilarity [1] [-1] = -1 := by
    norm_num [cosineSimilarity, normList, dotList, ratSqrt]
  refine ⟨by decide, ?_, ?_⟩
  · norm_num [rankedResults, scoredResults, List.filterMap_cons, sortDesc, hc]
  · norm_num [searchChunks, rankedResults, scoredResults,
      List.filterMap_cons, sortDesc, pyTruncate, hc]

/-- C7 amended.  At the default `min_score = 0` the threshold keeps exactly
the chunks with non-negative cosine similarity: every chunk with a non-falsy
embedding and similarity `≥ 0` appears in the ranked result set before
truncation (with its similarity as score), and every ranked entry has a
non-negative score; chunks with negative similarity are excluded
(`min_score_zero_filters_negative_cex`). -/
theorem min_score_zero_keeps_nonnegative (rows : List ChunkRow)
    (q : List ℚ) :
    (∀ c ∈ rows, ∀ e, c.embedding = some e → e ≠ [] →
      0 ≤ cosineSimilarity q e →
      (⟨c.chunk_id, c.chunk_text, c.sectionName, c.chunk_index,
        cosineSimilarity q e, c.created_at⟩ : SearchResult) ∈
        rankedResults rows q 0) ∧
    (∀ r ∈ rankedResults rows q 0, 0 ≤ r.similarity_score) := by
  constructor
  · intro c hc e he hne hnn
    rw [rankedResults, (sortDesc_perm _).mem_iff]
    refine List.mem_filterMap.mpr ⟨c, hc, ?_⟩
    rw [he]
    dsimp only
    rw [if_neg hne, if_pos hnn]
  · intro r hr
    rw [rankedResults, (sortDesc_perm _).mem_iff] at hr
    obtain ⟨c, _, hEq⟩ := List.mem_filterMap.mp hr
    revert hEq
    cases c.embedding with
    | none => intro hEq; cases hEq
    | some e =>
      dsimp only
      split
      · intro hEq; cases hEq
      · split
        · intro hEq
          cases hEq
          assumption
        · intro hEq; cases hEq

/-- Witness for the amended C7: a chunk with embedding `[1]` and query
`[1]` (similarity 1 ≥ 0) appears in the ranked results, score 1. -/
theorem min_score_zero_keeps_nonnegative_witness :
    (⟨"c1", "t1", none, 0, cosineSimilarity [1] [1], none⟩ : SearchResult) ∈
      rankedResults [⟨"c1", "t1", none, 0, some [1], none⟩] [1] 0 :=
  (min_score_zero_keeps_nonnegative
      [⟨"c1", "t1", none, 0, some [1], none⟩] [1]).1
    ⟨"c1", "t1", none, 0, some [1], none⟩ (List.mem_singleton.mpr rfl)
    [1] rfl (by decide)
    (by norm_num [cosineSimilarity, normList, dotList, ratSqrt])

/-! Embedding service (`src/embedding_service.py`).  The OpenAI API is
modelled by two oracles: `batchResp` for a whole-batch
`client.embeddings.create` call and `singleResp` for a single-text call;
`Except.error` models a raised exception with its message. -/

/-- Model of `EmbeddingService.create_embedding`: wraps any API failure in
a `RuntimeError` with the prefix the code uses. -/
def createEmbedding (singleResp : String → Except String (List ℚ))
    (text : String) : Except String (List ℚ) :=
  match singleResp text with
  | .ok v => .ok v
  | .error e => .error ("Failed to create embedding: " ++ e)

/-- Partition into consecutive batches of `bs` (with fuel; `bs ≥ 1` makes
the fuel `l.length` sufficient), modelling
`for i in range(0, len(texts), batch_size): texts[i:i+batch_size]`. -/
def batchesOfAux (bs : Nat) : Nat → List String → List (List String)
  | 0, _ => []
  | fuel + 1, l =>
    if l.isEmpty then []
    else l.take bs :: batchesOfAux bs fuel (l.drop bs)

/-- The batches of `texts` of size `bs`. -/
def batchesOf (bs : Nat) (l : List String) : List (List String) :=
  batchesOfAux bs l.length l

/-- Per-batch processing of `create_embeddings_batch`: a successful batch
call contributes its embeddings; a failed batch call falls back to one
`create_embedding` call per text, substituting a 1536-entry zero vector
(the hard-coded `[0.0] * 1536`) when the individual call also fails. -/
def processBatch (batchResp : List String → Except String (List (List ℚ)))
    (singleResp : String → Except String (List ℚ))
    (batch : List String) : List (List ℚ) :=
  match batchResp batch with
  | .ok bembs => bembs
  | .error _ =>
    batch.map (fun t =>
      match createEmbedding singleResp t with
      | .ok v => v
      | .error _ => List.replicate 1536 (0 : ℚ))

/-- Model of `EmbeddingService.create_embeddings_batch(texts, batch_size)`.
`range(0, len(texts), 0)` raises `ValueError`; a negative step yields an
empty range, so no batch is processed; otherwise the loop extends the
result list batch by batch, which is the flattening of the per-batch
outputs. -/
def createEmbeddingsBatch
    (batchResp : List String → Except String (List (List ℚ)))
    (singleResp : String → Except String (List ℚ))
    (texts : List String) (batch_size : Int) :
    Except String (List (List ℚ)) :=
  if batch_size = 0 then .error "range() arg 3 must not be zero"
  else if batch_size < 0 then .ok []
  else .ok ((batchesOf batch_size.toNat texts).map
    (processBatch batchResp singleResp)).flatten

/-- Model of `EmbeddingService.get_embedding_dimension`: a lookup table
with default 1536. -/
def getEmbeddingDimension (model : String) : Nat :=
  if model = "text-embedding-ada-002" then 1536
  else if model = "text-embedding-3-small" then 1536
  else if model = "text-embedding-3-large" then 3072
  else 1536

/-- C8 counterexample.  When both the batch call and the individual call
fail, the substituted zero vector always has 1536 entries, which is not
the dimension of the configured model for `text-embedding-3-large`
(3072); and for a negative `batch_size` the loop processes no batch at
all, returning no vector for a non-empty input. -/
theorem embeddings_batch_dimension_cex :
    (createEmbeddingsBatch (fun _ => .error "api down")
        (fun _ => .error "api down") ["t"] 100 =
      .ok [List.replicate 1536 0]) ∧
    getEmbeddingDimension "text-embedding-3-large" = 3072 ∧
    (1536 ≠ 3072) ∧
    (createEmbeddingsBatch (fun _ => .error "api down")
        (fun _ => .ok [1]) ["a"] (-1) = .ok []) := by
  refine ⟨rfl, by decide, by decide, rfl⟩

/-- The batches of size `bs ≥ 1` concatenate back to the input. -/
theorem batchesOfAux_flatten (bs : Nat) (hbs : 1 ≤ bs) :
    ∀ fuel l, l.length ≤ fuel → (batchesOfAux bs fuel l).flatten = l := by
  intro fuel
  induction fuel with
  | zero =>
    intro l hl
    have : l = [] := List.eq_nil_of_length_eq_zero (by omega)
    subst this
    rfl
  | succ n ih =>
    intro l hl
    rw [batchesOfAux]
    cases l with
    | nil => rfl
    | cons x xs =>
      rw [if_neg (by simp)]
      rw [List.flatten_cons]
      rw [ih ((x :: xs).drop bs) (by
        rw [List.length_drop]
        simp only [List.length_cons] at hl ⊢
        omega)]
      exact List.take_append_drop bs (x :: xs)

/-- Per-batch processing returns one vector per batch text when the batch
oracle is well-formed (a successful batch response has one embedding per
input, which is the OpenAI API contract the code relies on). -/
theorem processBatch_length
    (batchResp : List String → Except String (List (List ℚ)))
    (singleResp : String → Except String (List ℚ))
    (hwf : ∀ b v, batchResp b = .ok v → v.length = b.length)
    (batch : List String) :
    (processBatch batchResp singleResp batch).length = batch.length := by
  unfold processBatch
  cases hb : batchResp batch with
  | ok v => exact hwf batch v hb
  | error e => exact List.length_map _ _

/-- C8 amended.  For every `batch_size ≥ 1` and a batch oracle that
returns one embedding per input on success, `create_embeddings_batch`
returns exactly one vector per input text, as the in-order concatenation
of the per-batch outputs over a partition of the inputs; a failing batch
falls back to per-item calls, and a failing item contributes the
hard-coded 1536-entry zero vector — the dimension of the default model,
not of the configured model (`embeddings_batch_dimension_cex`). -/
theorem embeddings_batch_one_vector_per_input
    (batchResp : List String → Except String (List (List ℚ)))
    (singleResp : String → Except String (List ℚ))
    (texts : List String) (batch_size : Int) (h1 : 1 ≤ batch_size)
    (hwf : ∀ b v, batchResp b = .ok v → v.length = b.length) :
    createEmbeddingsBatch batchResp singleResp texts batch_size =
      .ok ((batchesOf batch_size.toNat texts).map
        (processBatch batchResp singleResp)).flatten ∧
    (batchesOf batch_size.toNat texts).flatten = texts ∧
    ((batchesOf batch_size.toNat texts).map
      (processBatch batchResp singleResp)).flatten.length = texts.length := by
  have hflat : (batchesOf batch_size.toNat texts).flatten = texts :=
    batchesOfAux_flatten batch_size.toNat (by omega) texts.length texts
      (le_refl _)
  refine ⟨?_, hflat, ?_⟩
  · unfold createEmbeddingsBatch
    rw [if_neg (by omega), if_neg (by omega)]
  · have : ∀ bl : List (List String),
        ((bl.map (processBatch batchResp singleResp)).flatten).length =
          bl.flatten.length := by
      intro bl
      induction bl with
      | nil => rfl
      | cons b rest ih =>
        rw [List.map_cons, List.flatten_cons, List.flatten_cons,
          List.length_append, List.length_append, ih,
          processBatch_length batchResp singleResp hwf]
    rw [this, hflat]

/-- Witness for the amended C8: both oracles failing on two texts with
batch size 100 still yields one (zero) vector per text. -/
theorem embeddings_batch_one_vector_per_input_witness :
    createEmbeddingsBatch (fun _ => .error "down") (fun _ => .error "down")
        ["a", "b"] 100 =
      .ok ((batchesOf 100 ["a", "b"]).map
        (processBatch (fun _ => .error "down") (fun _ => .error "down"))).flatten ∧
    (batchesOf 100 ["a", "b"]).flatten = ["a", "b"] ∧
    ((batchesOf 100 ["a", "b"]).map
      (processBatch (fun _ => .error "down")
        (fun _ => .error "down"))).flatten.length = 2 :=
  embeddings_batch_one_vector_per_input (fun _ => .error "down")
    (fun _ => .error "down") ["a", "b"] 100 (by decide)
    (fun b v h => nomatch h)

/-! Research orchestrator (`src/research_orchestrator.py`) over the static
subject registry (`src/research_subjects.py`).  Thread-pool concurrency is
modelled by an arbitrary completion order (any permutation of the
registry, as delivered by `as_completed`) and a per-subject outcome oracle
(`Except.error` models `future.result()` re-raising the task's
exception). -/

/-- The dataclass `ResearchSubject` of `src/research_subjects.py`. -/
structure ResearchSubject where
  id : String
  name : String
  description : String
  prompt_template : String
deriving DecidableEq

/-- The static registry constant `PRODUCTS_SERVICES` of `src/research_subjects.py`. -/
def PRODUCTS_SERVICES : ResearchSubject :=
  ⟨"products_services",
   "Products and Services",
   "What products/services does the business offer?",
   "Research and provide comprehensive information about {ticker}'s products and services.\n\nFocus on:\n- Complete product/service portfolio\n- Product categories and lines\n- Service offerings\n- Key features and capabilities\n- Product lifecycle stages\n- Innovation and R&D focus areas\n\nUse Alpha Vantage MCP tools for company overview and financial data, and Perplexity research for detailed product information, market positioning, and recent product launches or updates."⟩

/-- The static registry constant `REVENUE_BREAKDOWN` of `src/research_subjects.py`. -/
def REVENUE_BREAKDOWN : ResearchSubject :=
  ⟨"revenue_breakdown",
   "Revenue Breakdown",
   "Revenue breakdown by product, geography, and channel",
   "Research and provide detailed revenue breakdown for {ticker}.\n\nFocus on:\n- Revenue by product/service line\n- Revenue by geographic region\n- Revenue by sales channel (direct, indirect, online, retail, etc.)\n- Revenue trends and growth rates by segment\n- Percentage contribution of each segment\n- Historical revenue mix changes\n\nUse Alpha Vantage MCP tools for financial statements and income statements. Use Perplexity research for detailed segment reporting, geographic revenue data, and channel-specific information from company reports and filings."⟩

/-- The static registry constant `VALUE_PROPOSITIONS` of `src/research_subjects.py`. -/
def VALUE_PROPOSITIONS : ResearchSubject :=
  ⟨"value_propositions",
   "Value Propositions and Key Clients",
   "Value propositions and key clients",
   "Research {ticker}'s value propositions and key clients.\n\nFocus on:\n- Core value propositions for each product/service\n- Unique selling points and competitive advantages\n- Key customer segments\n- Major clients and customer relationships\n- Customer retention and loyalty metrics\n- Market positioning and brand value\n\nUse Alpha Vantage MCP tools for company overview. Use Perplexity research for customer case studies, client lists, value proposition details, and market positioning information."⟩

/-- The static registry constant `BUYING_PROCESS` of `src/research_subjects.py`. -/
def BUYING_PROCESS : ResearchSubject :=
  ⟨"buying_process",
   "Buying Process",
   "Who buys and how does the buying process work?",
   "Research {ticker}'s customer buying process and decision-makers.\n\nFocus on:\n- Primary customer types and personas\n- Decision-making process and stakeholders\n- Sales cycle length and stages\n- Buying criteria and evaluation factors\n- Procurement processes\n- Customer acquisition channels\n- Relationship management approach\n\nUse Perplexity research for detailed information about customer buying behavior, sales processes, and industry-specific procurement patterns."⟩

/-- The static registry constant `SEASONALITY` of `src/research_subjects.py`. -/
def SEASONALITY : ResearchSubject :=
  ⟨"seasonality",
   "Seasonality",
   "Seasonality patterns",
   "Research seasonal patterns and cyclicality for {ticker}.\n\nFocus on:\n- Quarterly revenue patterns\n- Seasonal demand fluctuations\n- Industry-specific seasonality\n- Historical seasonal trends\n- Peak and off-peak periods\n- Factors driving seasonality\n- Impact of seasonality on operations and cash flow\n\nUse Alpha Vantage MCP tools for quarterly earnings and financial data. Use Perplexity research for industry-specific seasonal patterns and analysis."⟩

/-- The static registry constant `MARGIN_STRUCTURE` of `src/research_subjects.py`. -/
def MARGIN_STRUCTURE : ResearchSubject :=
  ⟨"margin_structure",
   "Margin Structure",
   "Margin structure by segment",
   "Research {ticker}'s margin structure by business segment.\n\nFocus on:\n- Gross margins by product/service line\n- Operating margins by segment\n- Profitability by geography\n- Margin trends over time\n- Factors affecting margins\n- Cost structure by segment\n- Margin improvement initiatives\n\nUse Alpha Vantage MCP tools for income statements and financial data. Use Perplexity research for detailed segment margin analysis and cost structure information."⟩
/-- Model of `get_research_subjects()`: the fixed list of six subjects. -/
def getResearchSubjects : List ResearchSubject :=
  [PRODUCTS_SERVICES, REVENUE_BREAKDOWN, VALUE_PROPOSITIONS,
   BUYING_PROCESS, SEASONALITY, MARGIN_STRUCTURE]

/-- A research result dictionary.  The agent's success dictionary and the
orchestrator's synthetic failure dictionary both carry these keys;
`subject_name` and `research_output` are optional because downstream code
reads them with `dict.get` defaults, and `error` is present only on
failure. -/
structure ResearchResult where
  subject_id : String
  subject_name : Option String
  research_output : Option String
  sources : List String
  ticker : String
  trade_type : String
  error : Option String
deriving DecidableEq

/-- The synthetic failure entry built in the `except` arm of
`run_parallel_research`: `research_output = "Error: <msg>"`, `error` set
to the exception message, empty sources. -/
def syntheticResult (ticker trade_type : String) (s : ResearchSubject)
    (e : String) : ResearchResult :=
  ⟨s.id, some s.name, some ("Error: " ++ e), [], ticker, trade_type, some e⟩

/-- Python dict assignment `d[k] = v` on an insertion-ordered association
list: overwrite in place when the key exists, append otherwise. -/
def dictInsert (l : List (String × ResearchResult)) (k : String)
    (v : ResearchResult) : List (String × ResearchResult) :=
  if l.any (fun p => decide (p.1 = k)) then
    l.map (fun p => if p.1 = k then (k, v) else p)
  else l ++ [(k, v)]

/-- The entry stored for a subject: the agent's result on success, the
synthetic failure entry when the task raised. -/
def resultFor (ticker trade_type : String)
    (outcome : ResearchSubject → Except String ResearchResult)
    (s : ResearchSubject) : ResearchResult :=
  match outcome s with
  | .ok r => r
  | .error e => syntheticResult ticker trade_type s e

/-- Model of `ResearchOrchestrator.run_parallel_research`: results are
collected into the dictionary in completion order (`order`), one entry per
completed or failed future; a raising task only affects its own entry. -/
def runParallelResearch (ticker trade_type : String)
    (outcome : ResearchSubject → Except String ResearchResult)
    (order : List ResearchSubject) : List (String × ResearchResult) :=
  order.foldl (fun results subject =>
    match outcome subject with
    | .ok r => dictInsert results subject.id r
    | .error e =>
      dictInsert results subject.id
        (syntheticResult ticker trade_type subject e)) []

/-- When every processed subject's id is fresh (never already a key) and
the processed ids are distinct, the collection loop appends exactly one
entry per subject, keyed by its id, in completion order. -/
theorem runParallel_foldl (ticker tt : String)
    (outcome : ResearchSubject → Except String ResearchResult) :
    ∀ (order : List ResearchSubject) (acc : List (String × ResearchResult)),
      (order.map (fun s => s.id)).Nodup →
      (∀ s ∈ order, ∀ p ∈ acc, p.1 ≠ s.id) →
      List.foldl (fun results subject =>
        match outcome subject with
        | .ok r => dictInsert results subject.id r
        | .error e =>
          dictInsert results subject.id
            (syntheticResult ticker tt subject e)) acc order =
      acc ++ order.map (fun s => (s.id, resultFor ticker tt outcome s)) := by
  intro order
  induction order with
  | nil =>
    intro acc _ _
    simp
  | cons s rest ih =>
    intro acc hnd hfresh
    rw [List.map_cons, List.nodup_cons] at hnd
    rw [List.foldl_cons]
    have hnotin : ¬ (acc.any (fun p => decide (p.1 = s.id)) = true) := by
      simp only [List.any_eq_true, decide_eq_true_eq, not_exists, not_and]
      intro p hp
      exact hfresh s (List.mem_cons_self s rest) p hp
    have hstep : (match outcome s with
        | .ok r => dictInsert acc s.id r
        | .error e => dictInsert acc s.id (syntheticResult ticker tt s e)) =
        acc ++ [(s.id, resultFor ticker tt outcome s)] := by
      unfold resultFor
      cases outcome s with
      | ok r =>
        dsimp only
        unfold dictInsert
        rw [if_neg hnotin]
      | error e =>
        dsimp only
        unfold dictInsert
        rw [if_neg hnotin]
    rw [hstep]
    rw [ih (acc ++ [(s.id, resultFor ticker tt outcome s)]) hnd.2 ?_]
    · rw [List.append_assoc]
      rfl
    · intro s2 hs2 p hp
      rcases List.mem_append.mp hp with hp2 | hp2
      · exact hfresh s2 (List.mem_cons_of_mem s hs2) p hp2
      · rcases List.mem_singleton.mp hp2 with rfl
        intro he
        have he2 : s.id = s2.id := he
        refine hnd.1 ?_
        rw [he2]
        exact List.mem_map.mpr ⟨s2, hs2, rfl⟩

/-- Dictionary lookup over one-entry-per-subject results finds the
subject's own entry when the ids are distinct. -/
theorem lookup_map_of_mem (f : ResearchSubject → ResearchResult) :
    ∀ (order : List ResearchSubject) (s : ResearchSubject), s ∈ order →
      (order.map (fun t => t.id)).Nodup →
      List.lookup s.id (order.map (fun t => (t.id, f t))) = some (f s) := by
  intro order
  induction order with
  | nil =>
    intro s hs
    cases hs
  | cons t rest ih =>
    intro s hs hnd
    rw [List.map_cons, List.nodup_cons] at hnd
    rcases List.mem_cons.mp hs with rfl | hs2
    · rw [List.map_cons, List.lookup_cons]
      simp
    · have hne : (s.id == t.id) = false := by
        rw [beq_eq_false_iff_ne]
        intro he
        refine hnd.1 ?_
        rw [← he]
        exact List.mem_map.mpr ⟨s, hs2, rfl⟩
      rw [List.map_cons, List.lookup_cons, hne]
      exact ih s hs2 hnd.2

/-- C1.  Over any completion order of the static registry and any
per-subject outcomes, `run_parallel_research` produces exactly one entry
per dispatched subject id — the mapping is the registry ids as a
duplicate-free set of keys, of size 6 — and a raising task only replaces
its own entry with the synthetic failure result (error message recorded,
`research_output` set to "Error: <msg>"), leaving every sibling entry in
place; the collection loop runs to the end of the completion order. -/
theorem run_parallel_complete (ticker tt : String)
    (outcome : ResearchSubject → Except String ResearchResult)
    (order : List ResearchSubject)
    (hperm : order.Perm getResearchSubjects) :
    runParallelResearch ticker tt outcome order =
      order.map (fun s => (s.id, resultFor ticker tt outcome s)) ∧
    ((runParallelResearch ticker tt outcome order).map Prod.fst).Perm
      (getResearchSubjects.map (fun s => s.id)) ∧
    ((runParallelResearch ticker tt outcome order).map Prod.fst).Nodup ∧
    (runParallelResearch ticker tt outcome order).length = 6 ∧
    (∀ s ∈ order, ∀ e, outcome s = .error e →
      List.lookup s.id (runParallelResearch ticker tt outcome order) =
        some (syntheticResult ticker tt s e)) := by
  have hndReg : (getResearchSubjects.map (fun s => s.id)).Nodup := by decide
  have hnd : (order.map (fun s => s.id)).Nodup :=
    ((hperm.map (fun s => s.id)).nodup_iff).mpr hndReg
  have heq : runParallelResearch ticker tt outcome order =
      order.map (fun s => (s.id, resultFor ticker tt outcome s)) := by
    unfold runParallelResearch
    rw [runParallel_foldl ticker tt outcome order [] hnd
      (fun s _ p hp => absurd hp (List.not_mem_nil p))]
    rfl
  have hfst : (runParallelResearch ticker tt outcome order).map Prod.fst =
      order.map (fun s => s.id) := by
    rw [heq, List.map_map]
    rfl
  refine ⟨heq, ?_, ?_, ?_, ?_⟩
  · rw [hfst]
    exact hperm.map _
  · rw [hfst]
    exact hnd
  · rw [heq, List.length_map, hperm.length_eq]
    rfl
  · intro s hs e he
    rw [heq, lookup_map_of_mem _ order s hs hnd]
    unfold resultFor
    rw [he]

/-- Completion order for the C1 witness: the first two futures complete in
swapped order. -/
def demoOrder : List ResearchSubject :=
  [REVENUE_BREAKDOWN, PRODUCTS_SERVICES, VALUE_PROPOSITIONS,
   BUYING_PROCESS, SEASONALITY, MARGIN_STRUCTURE]

/-- Outcomes for the C1 witness: two of the six agent tasks raise. -/
def demoOutcome (s : ResearchSubject) : Except String ResearchResult :=
  if s.id = "products_services" then .error "boom1"
  else if s.id = "revenue_breakdown" then .error "boom2"
  else .ok ⟨s.id, some s.name, some "findings", [], "NVDA", "Investment",
    none⟩

/-- Witness for C1: six subjects with two raising tasks still produce a
mapping of size 6, and the two failed subjects' entries are the synthetic
results with non-empty `error` fields. -/
theorem run_parallel_complete_witness :
    ((runParallelResearch "NVDA" "Investment" demoOutcome demoOrder).length
      = 6) ∧
    (List.lookup "products_services"
        (runParallelResearch "NVDA" "Investment" demoOutcome demoOrder) =
      some (syntheticResult "NVDA" "Investment" PRODUCTS_SERVICES
        "boom1")) ∧
    (List.lookup "revenue_breakdown"
        (runParallelResearch "NVDA" "Investment" demoOutcome demoOrder) =
      some (syntheticResult "NVDA" "Investment" REVENUE_BREAKDOWN
        "boom2")) ∧
    ("boom1" ≠ "") ∧ ("boom2" ≠ "") := by
  have hperm : demoOrder.Perm getResearchSubjects :=
    List.Perm.swap PRODUCTS_SERVICES REVENUE_BREAKDOWN
      [VALUE_PROPOSITIONS, BUYING_PROCESS, SEASONALITY, MARGIN_STRUCTURE]
  have h := run_parallel_complete "NVDA" "Investment" demoOutcome demoOrder
    hperm
  refine ⟨h.2.2.2.1, ?_, ?_, by decide, by decide⟩
  · exact h.2.2.2.2 PRODUCTS_SERVICES
      (List.mem_cons_of_mem _ (List.mem_cons_self _ _)) "boom1" rfl
  · exact h.2.2.2.2 REVENUE_BREAKDOWN (List.mem_cons_self _ _) "boom2" rfl

/-! Synthesis agent (`src/synthesis_agent.py`).  `_build_synthesis_prompt`
accumulates a list of lines (`prompt_parts`) and joins them with newlines;
the per-subject blocks are appended by iterating `research_outputs.items()`,
i.e. in the dictionary's insertion order.  `datetime_context` (wall-clock
dependent) is a parameter of the model. -/

/-- Python `'\n'.join(parts)` on Lean strings. -/
def joinNL : List String → String
  | [] => ""
  | [s] => s
  | s :: s2 :: rest => s ++ "\n" ++ joinNL (s2 :: rest)

/-- The fixed lines of `prompt_parts` before the research blocks. -/
def synthesisPreamble (ticker trade_type datetime_context : String) :
    List String :=
  ["**TASK: Synthesize specialized research findings into a comprehensive business model report for " ++ ticker ++ " (" ++ trade_type ++ ")**",
   "",
   datetime_context,
   "",
   "**CRITICAL INSTRUCTIONS - READ CAREFULLY:**",
   "",
   "The specialized research agents below have conducted detailed, in-depth research on different aspects of " ++ ticker ++ "'s business model. Each agent has provided comprehensive findings with specific data points, metrics, numbers, facts, and detailed analysis.",
   "",
   "**YOUR RESPONSIBILITY:**",
   "- **PRESERVE ALL DETAILS**: Include ALL specific metrics, numbers, percentages, dollar amounts, dates, and quantitative data from each research output",
   "- **PRESERVE ALL FACTS**: Include ALL specific facts, findings, examples, and qualitative insights from each research output",
   "- **INTEGRATE, DON'T SUMMARIZE**: Your job is to integrate this detailed information into a well-structured report, NOT to condense or summarize away the details",
   "- **USE ALL INFORMATION**: Fully utilize all the detailed research findings - specialized agents have done comprehensive work that should be preserved in the final report",
   "- **MAINTAIN DEPTH**: Maintain the depth and specificity of analysis provided by the specialized research agents",
   "- **INCLUDE SPECIFIC DATA**: Each section of your report should include specific data points, metrics, and detailed information - avoid high-level summaries",
   "- **CROSS-REFERENCE**: Where information from different research subjects connects, make those relationships explicit using the detailed data provided",
   "",
   "The specialized agents have invested significant effort in gathering detailed information. Your synthesis should reflect and preserve this comprehensive research, not reduce it to bullet points or high-level summaries.",
   "",
   "**Research Findings from Specialized Agents:**",
   ""]

/-- The lines appended for one `(subject_id, result)` entry of the
research-outputs dictionary: header with the subject name (default
`subject_id`), the research output (with its `dict.get` default), the
enumerated sources when any, and the separator. -/
def subjectBlock (subject_id : String) (result : ResearchResult) :
    List String :=
  let subject_name := result.subject_name.getD subject_id
  let research_output :=
    result.research_output.getD "No research output available"
  ["### " ++ subject_name ++ " - Detailed Research Output",
   "",
   "**Comprehensive Research Findings (preserve all details from this output):**",
   research_output] ++
  (if result.sources.isEmpty then []
   else ["", "**Sources Used by This Research Agent:**"] ++
     (result.sources.enum.map
       (fun p => toString (p.1 + 1) ++ ". " ++ p.2))) ++
  ["", "---", ""]

/-- The lines appended for a truthy `context`. -/
def contextParts (context : String) : List String :=
  if context = "" then []
  else ["", "**Additional Context from User:**", context, ""]

/-- The fixed closing lines of `prompt_parts`. -/
def synthesisTail : List String :=
  ["",
   "**FINAL INSTRUCTIONS:**",
   "",
   "Now create a comprehensive, detailed business model report that:",
   "1. Integrates all the detailed research findings above into a well-structured format",
   "2. Preserves ALL specific metrics, numbers, facts, and detailed information from each research output",
   "3. Includes specific data points (percentages, dollar amounts, dates, quantities) throughout the report",
   "4. Maintains the depth and comprehensiveness of the specialized research",
   "5. Clearly cites all sources from the research outputs",
   "6. Draws connections between different research subjects where relevant",
   "",
   "Remember: The goal is comprehensive integration of detailed information, NOT summarization or condensation. Use all the detailed findings provided by the specialized research agents."]

/-- The `prompt_parts` list of `SynthesisAgent._build_synthesis_prompt`:
preamble, one block per entry of the insertion-ordered research-outputs
dictionary, context lines, closing lines. -/
def buildSynthesisPromptParts (ticker trade_type : String)
    (research_outputs : List (String × ResearchResult))
    (context datetime_context : String) : List String :=
  synthesisPreamble ticker trade_type datetime_context ++
    (research_outputs.map (fun p => subjectBlock p.1 p.2)).flatten ++
    contextParts context ++ synthesisTail

/-- Model of `SynthesisAgent._build_synthesis_prompt`: the joined parts. -/
def buildSynthesisPrompt (ticker trade_type : String)
    (research_outputs : List (String × ResearchResult))
    (context datetime_context : String) : String :=
  joinNL (buildSynthesisPromptParts ticker trade_type research_outputs
    context datetime_context)

/-- String concatenation cancels on the left. -/
theorem str_append_left_cancel {a b c : String} (h : a ++ b = a ++ c) :
    b = c := by
  apply String.ext
  have h2 : (a ++ b).data = (a ++ c).data := by rw [h]
  rw [String.data_append, String.data_append] at h2
  exact List.append_cancel_left h2

/-- Joining a concatenation of two non-empty line lists splits around a
newline. -/
theorem joinNL_append (xs ys : List String) (hx : xs ≠ []) (hy : ys ≠ []) :
    joinNL (xs ++ ys) = joinNL xs ++ "\n" ++ joinNL ys := by
  induction xs with
  | nil => exact absurd rfl hx
  | cons s rest ih =>
    cases rest with
    | nil =>
      cases ys with
      | nil => exact absurd rfl hy
      | cons y t => rfl
    | cons s2 rest2 =>
      have h2 := ih (by simp)
      show s ++ "\n" ++ joinNL (s2 :: (rest2 ++ ys)) =
        joinNL (s :: s2 :: rest2) ++ "\n" ++ joinNL ys
      rw [show joinNL (s2 :: (rest2 ++ ys)) =
        joinNL ((s2 :: rest2) ++ ys) from rfl]
      rw [h2]
      rw [show joinNL (s :: s2 :: rest2) =
        s ++ "\n" ++ joinNL (s2 :: rest2) from rfl]
      simp only [String.append_assoc]

/-- The synthesis prompt splits into the joined preamble and the joined
remainder (blocks, context, closing lines). -/
theorem buildSynthesisPrompt_split (ticker trade_type : String)
    (ro : List (String × ResearchResult)) (context datetime_context : String) :
    buildSynthesisPrompt ticker trade_type ro context datetime_context =
      joinNL (synthesisPreamble ticker trade_type datetime_context) ++ "\n" ++
        joinNL ((ro.map (fun p => subjectBlock p.1 p.2)).flatten ++
          contextParts context ++ synthesisTail) := by
  unfold buildSynthesisPrompt buildSynthesisPromptParts
  rw [List.append_assoc, List.append_assoc]
  rw [joinNL_append]
  · rw [List.append_assoc]
  · simp [synthesisPreamble]
  · simp [synthesisTail, List.append_eq_nil]

/-- A successful research entry used in the C5 theorems. -/
def demoResultA : ResearchResult :=
  ⟨"a", some "A", some "x", [], "T", "Investment", none⟩

/-- A second successful research entry used in the C5 theorems. -/
def demoResultB : ResearchResult :=
  ⟨"b", some "B", some "y", [], "T", "Investment", none⟩

/-- C5 counterexample.  `_build_synthesis_prompt` iterates
`research_outputs.items()` in dictionary insertion order, not in a fixed
canonical subject order: the same two results inserted in swapped order
produce different prompts (the first research block starts "### A" in one
and "### B" in the other). -/
theorem synthesis_prompt_order_cex :
    ([("b", demoResultB), ("a", demoResultA)] :
        List (String × ResearchResult)).Perm
      [("a", demoResultA), ("b", demoResultB)] ∧
    buildSynthesisPrompt "T" "Investment"
        [("a", demoResultA), ("b", demoResultB)] "" "D" ≠
      buildSynthesisPrompt "T" "Investment"
        [("b", demoResultB), ("a", demoResultA)] "" "D" := by
  constructor
  · exact List.Perm.swap ("a", demoResultA) ("b", demoResultB) []
  · intro h
    rw [buildSynthesisPrompt_split, buildSynthesisPrompt_split] at h
    have h2 := str_append_left_cancel h
    exact absurd h2 (by decide)

set_option maxHeartbeats 1000000 in
/-- C5 amended.  The synthesis prompt enumerates the research outputs in
the mapping's insertion (completion) order: equal ordered mappings give
equal prompts, and mappings holding the same results in different orders
give prompts made of the same multiset of lines — but not, in general, the
same prompt (`synthesis_prompt_order_cex`); no canonical subject order is
imposed. -/
theorem synthesis_prompt_insertion_order (ticker trade_type : String)
    (o1 o2 : List (String × ResearchResult)) (context datetime_context : String)
    (hperm : o1.Perm o2) :
    (buildSynthesisPromptParts ticker trade_type o1 context
        datetime_context).Perm
      (buildSynthesisPromptParts ticker trade_type o2 context
        datetime_context) ∧
    (o1 = o2 →
      buildSynthesisPrompt ticker trade_type o1 context datetime_context =
        buildSynthesisPrompt ticker trade_type o2 context datetime_context) := by
  constructor
  · unfold buildSynthesisPromptParts
    refine List.Perm.append (List.Perm.append (List.Perm.append
      (List.Perm.refl _) ?_) (List.Perm.refl _)) (List.Perm.refl _)
    exact (hperm.map (fun p => subjectBlock p.1 p.2)).flatten
  · intro h
    rw [h]

/-- Witness for the amended C5 at the counterexample inputs: the two
swapped mappings give prompts with permuted line lists. -/
theorem synthesis_prompt_insertion_order_witness :
    (buildSynthesisPromptParts "T" "Investment"
        [("a", demoResultA), ("b", demoResultB)] "" "D").Perm
      (buildSynthesisPromptParts "T" "Investment"
        [("b", demoResultB), ("a", demoResultA)] "" "D") :=
  (synthesis_prompt_insertion_order "T" "Investment"
    [("a", demoResultA), ("b", demoResultB)]
    [("b", demoResultB), ("a", demoResultA)] "" "D"
    (List.Perm.swap ("b", demoResultB) ("a", demoResultA) [])).1

/-! Report chat agent (`src/report_chat_agent.py`).  The question embedding
comes from `EmbeddingService.create_embedding` (oracle `singleResp`);
retrieval is `VectorSearch.search_chunks` over the report's stored rows;
the LLM run (`Runner.run_sync` plus output extraction) is the oracle
`llm`, whose `Except.error` models a raised exception. -/

/-- Python `str.capitalize()`: first character upper-cased, the rest
lower-cased (ASCII model). -/
def pyCapitalize (s : String) : String :=
  match s.data with
  | [] => ""
  | c :: rest => String.mk (c.toUpper :: rest.map Char.toLower)

/-- A conversation turn dictionary; `role` and `content` are read with
`dict.get` defaults. -/
structure ChatTurn where
  role : Option String
  content : Option String
deriving DecidableEq

/-- The three lines appended per retrieved chunk (1-based excerpt number;
the section annotation only for a truthy `section`). -/
def excerptBlock (i : Nat) (c : SearchResult) : List String :=
  let section_info :=
    match c.sectionName with
    | none => ""
    | some s => if s = "" then "" else " (Section: " ++ s ++ ")"
  ["[Excerpt " ++ toString i ++ section_info ++ "]", c.chunk_text, ""]

/-- The conversation-history lines: only for a truthy history, and only
the last three turns. -/
def historyParts (hist : Option (List ChatTurn)) : List String :=
  match hist with
  | none => []
  | some turns =>
    if turns.isEmpty then []
    else
      ["Previous conversation:"] ++
        ((pyTakeLast turns 3).map (fun t =>
          pyCapitalize (t.role.getD "user") ++ ": " ++ t.content.getD "")) ++
        [""]

/-- Model of `ReportChatAgent._build_rag_prompt`. -/
def buildRagPrompt (question : String) (chunks : List SearchResult)
    (hist : Option (List ChatTurn)) : String :=
  joinNL (["Relevant excerpts from the report:", ""] ++
    (chunks.enum.map (fun p => excerptBlock (p.1 + 1) p.2)).flatten ++
    ["---", ""] ++ historyParts hist ++
    ["User question: " ++ question, "",
     "Answer the question using ONLY the information from the report excerpts above. If the information is not available in the excerpts, say so clearly."])

/-- The fixed no-retrieval response of `answer_question`. -/
def noInfoAnswer : String :=
  "I couldn't find relevant information in the report to answer your question. The report may not contain information about this topic."

/-- Model of `ReportChatAgent.answer_question(report_id, user_question,
conversation_history, top_k)`: embed the question (a failure here is the
uncaught `RuntimeError` from `create_embedding`), retrieve chunks with the
default `min_score = 0`, answer `noInfoAnswer` without any LLM call when
retrieval is empty, and otherwise run the LLM, converting a raised
exception into the `"Error generating answer: <msg>"` answer. -/
def answerQuestion (rows : List ChunkRow)
    (singleResp : String → Except String (List ℚ))
    (llm : String → Except String String) (question : String)
    (hist : Option (List ChatTurn)) (top_k : Int) :
    Except String String :=
  match createEmbedding singleResp question with
  | .error e => .error e
  | .ok qv =>
    let relevant := searchChunks rows qv top_k 0
    if relevant.isEmpty then .ok noInfoAnswer
    else
      match llm (buildRagPrompt question relevant hist) with
      | .ok ans => .ok ans
      | .error e => .ok ("Error generating answer: " ++ e)

/-- C9.  Whenever the retrieval step yields no chunks (no embedded chunks
for the report, or the similarity search legitimately returns empty),
`answer_question` returns the fixed "couldn't find relevant information"
string, for every LLM backend — the LLM is not invoked. -/
theorem answer_question_no_chunks (rows : List ChunkRow)
    (singleResp : String → Except String (List ℚ)) (question : String)
    (qv : List ℚ) (hist : Option (List ChatTurn)) (top_k : Int)
    (hemb : createEmbedding singleResp question = .ok qv)
    (hempty : searchChunks rows qv top_k 0 = []) :
    ∀ llm, answerQuestion rows singleResp llm question hist top_k =
      .ok noInfoAnswer := by
  intro llm
  unfold answerQuestion
  rw [hemb]
  dsimp only
  rw [hempty]
  rfl

/-- Witness for C9: a report with zero stored chunks answers the fixed
string even though the LLM oracle would have said something else. -/
theorem answer_question_no_chunks_witness :
    (createEmbedding (fun _ => .ok [1]) "any question" = .ok [1]) ∧
    (searchChunks [] [1] 5 0 = []) ∧
    answerQuestion [] (fun _ => .ok [1]) (fun _ => .ok "LLM WAS CALLED")
      "any question" none 5 = .ok noInfoAnswer :=
  ⟨rfl, rfl,
   answer_question_no_chunks [] (fun _ => .ok [1]) "any question" [1] none 5
     rfl rfl (fun _ => .ok "LLM WAS CALLED")⟩

/-- C10.  When retrieval succeeds but the LLM run raises, the exception is
caught and `answer_question` returns (not raises) the string
`"Error generating answer: <message>"`. -/
theorem answer_question_llm_error_caught (rows : List ChunkRow)
    (singleResp : String → Except String (List ℚ))
    (llm : String → Except String String) (question : String) (qv : List ℚ)
    (hist : Option (List ChatTurn)) (top_k : Int) (m : String)
    (hemb : createEmbedding singleResp question = .ok qv)
    (hne : searchChunks rows qv top_k 0 ≠ [])
    (hllm : llm (buildRagPrompt question (searchChunks rows qv top_k 0)
      hist) = .error m) :
    answerQuestion rows singleResp llm question hist top_k =
      .ok ("Error generating answer: " ++ m) := by
  unfold answerQuestion
  rw [hemb]
  dsimp only
  rw [if_neg (by simp only [List.isEmpty_iff]; exact hne)]
  rw [hllm]

/-- Witness for C10: one embedded chunk is retrieved, the LLM oracle
raises "boom", and the answer is the error string. -/
theorem answer_question_llm_error_caught_witness :
    (createEmbedding (fun _ => .ok [1]) "q" = .ok [1]) ∧
    (searchChunks [⟨"c1", "t1", none, 0, some [1], none⟩] [1] 5 0 ≠ []) ∧
    answerQuestion [⟨"c1", "t1", none, 0, some [1], none⟩]
        (fun _ => .ok [1]) (fun _ => .error "boom") "q" none 5 =
      .ok ("Error generating answer: " ++ "boom") :=
  ⟨rfl,
   by simp [searchChunks, rankedResults, scoredResults, List.filterMap_cons,
     sortDesc, insertDesc, pyTruncate, cosineSimilarity, normList, dotList,
     ratSqrt],
   answer_question_llm_error_caught [⟨"c1", "t1", none, 0, some [1], none⟩]
     (fun _ => .ok [1]) (fun _ => .error "boom") "q" [1] none 5 "boom" rfl
     (by simp [searchChunks, rankedResults, scoredResults,
       List.filterMap_cons, sortDesc, insertDesc, pyTruncate,
       cosineSimilarity, normList, dotList, ratSqrt])
     rfl⟩
